import Mathlib

/-!
Shallow embedding of the sales data-warehouse pipeline:
`etl_script.py` (extraction, cleaning, star-schema construction) and
`dashboard.py` (cube assembly by left joins, filtered KPIs and aggregates).

Conventions of the embedding:
* pandas numeric values are modelled by `Rat`; a pandas `NaN` cell is
  `Option.none`.
* pandas `Timestamp`s are modelled by a `Date` structure; `NaT` is `none`.
* a raw CSV cell (after `read_csv` with `QUOTE_NONE`) is the literal field
  text, quote characters included; a field that `read_csv` already reported
  as missing surfaces as the string "nan" because `clean_quotes` applies
  `astype(str)` to every object column.
* `pd.to_numeric` (default `errors='raise'`) is `toNumericCell`: it raises
  (returns `.error`) on an unparseable string, and maps the string "nan" to
  the missing marker.
* `pd.to_datetime(..., errors='coerce')` is `parseDate`, ISO `YYYY-MM-DD`
  with calendar validation; failure is `none` (NaT).
* `DataFrame`s are `List`s of row structures; `drop_duplicates` keeps the
  first occurrence (`dedupKeepFirst`); `Series.unique` also keeps first
  occurrences; `sort_values` is modelled by the stable `List.insertionSort`.
-/

/-- A calendar date (modelling a pandas `Timestamp` at day granularity). -/
structure Date where
  year : Nat
  month : Nat
  day : Nat
deriving DecidableEq, Repr

/-- Lexicographic (calendar) order on dates, the order `sort_values('date')`
and the pandas datetime comparison use. -/
def Date.le (a b : Date) : Prop :=
  a.year < b.year ∨ (a.year = b.year ∧
    (a.month < b.month ∨ (a.month = b.month ∧ a.day ≤ b.day)))

instance : DecidableRel Date.le := fun a b => by
  unfold Date.le; infer_instance

/-- Split a character list at every occurrence of the separator `c`
(the separators disappear; `n` separators give `n + 1` groups). -/
def splitOnChar (c : Char) : List Char → List (List Char)
  | [] => [[]]
  | a :: r =>
      if a = c then [] :: splitOnChar c r
      else
        match splitOnChar c r with
        | [] => [[a]]
        | g :: gs => (a :: g) :: gs

/-- `str.strip()`: drop whitespace from both ends. -/
def trimString (s : String) : String :=
  String.mk (((s.toList.dropWhile Char.isWhitespace).reverse.dropWhile
    Char.isWhitespace).reverse)

/-- Parse a nonempty all-digit character list to a natural number. -/
def parseDigits (cs : List Char) : Option Nat :=
  if cs.length ≠ 0 ∧ cs.all Char.isDigit then
    some (cs.foldl (fun a c => a * 10 + (c.toNat - 48)) 0)
  else none

/-- Parse a decimal literal (optional sign, digits, optional fraction part)
to a rational, modelling the strings `pd.to_numeric` accepts: an integer
part `n` and a fraction part `f` of `k` digits denote
`±(n + f / 10^k) = ±(n·10^k + f) / 10^k`. -/
def parseRat (s : String) : Option Rat :=
  let (neg, cs) :=
    match s.toList with
    | '-' :: r => (true, r)
    | '+' :: r => (false, r)
    | cs => (false, cs)
  let sign : Int := if neg then -1 else 1
  match splitOnChar '.' cs with
  | [ip] => (parseDigits ip).map (fun n => mkRat (sign * n) 1)
  | [ip, fp] =>
      match parseDigits ip, parseDigits fp with
      | some n, some f =>
          some (mkRat (sign * (n * 10 ^ fp.length + f)) (10 ^ fp.length))
      | _, _ => none
  | _ => none

/-- Rational addition written on numerators and denominators (equal to `+`
on `Rat`, see `ratAdd_eq_add`). -/
def ratAdd (a b : Rat) : Rat :=
  mkRat (a.num * b.den + b.num * a.den) (a.den * b.den)

/-- `Series.sum`: fold of `ratAdd` (equal to `List.sum`, see
`ratSum_eq_sum`). -/
def ratSum (l : List Rat) : Rat := l.foldr ratAdd 0

/-- Division of a rational by a natural count (equal to `a / n`, see
`ratDivNat_eq_div`). -/
def ratDivNat (a : Rat) (n : Nat) : Rat := mkRat a.num (a.den * n)

/-- Number of days in a month, Gregorian rules. -/
def daysInMonth (y m : Nat) : Nat :=
  if m = 2 then
    if y % 4 = 0 ∧ (y % 100 ≠ 0 ∨ y % 400 = 0) then 29 else 28
  else if m = 4 ∨ m = 6 ∨ m = 9 ∨ m = 11 then 30
  else 31

/-- A structurally valid calendar date. -/
def ValidDate (d : Date) : Prop :=
  1 ≤ d.month ∧ d.month ≤ 12 ∧ 1 ≤ d.day ∧ d.day ≤ daysInMonth d.year d.month

instance : DecidablePred ValidDate := fun d => by
  unfold ValidDate; infer_instance

/-- `pd.to_datetime(..., errors='coerce')` on a cleaned cell: parse an ISO
`YYYY-MM-DD` string, `none` (NaT) when the text or the calendar is invalid. -/
def parseDate (s : String) : Option Date :=
  match splitOnChar '-' s.toList with
  | [ys, ms, ds] =>
      match parseDigits ys, parseDigits ms, parseDigits ds with
      | some y, some m, some d =>
          if ValidDate ⟨y, m, d⟩ then some ⟨y, m, d⟩ else none
      | _, _, _ => none
  | _ => none

/-- `clean_quotes`: remove every `"` character and strip surrounding
whitespace (`str.replace('"','').str.strip()`), applied to headers and all
object-typed cells. -/
def cleanCell (s : String) : String :=
  trimString (String.mk (s.toList.filter (fun c => c ≠ '"')))

/-- `pd.to_numeric` (default `errors='raise'`) on one cleaned cell: a parse
failure raises, the string "nan" (what a missing field became under
`astype(str)`) stays missing. -/
def toNumericCell (s : String) : Except String (Option Rat) :=
  if s = "nan" then .ok none
  else
    match parseRat s with
    | some q => .ok (some q)
    | none => .error ("Unable to parse string " ++ s)

/-- Lexicographic comparison of character lists by code point, the order
Python's `sorted` uses on strings. -/
def charListLe : List Char → List Char → Prop
  | [], _ => True
  | _ :: _, [] => False
  | a :: as, b :: bs =>
      a.toNat < b.toNat ∨ (a.toNat = b.toNat ∧ charListLe as bs)

instance charListLe.dec : (l1 l2 : List Char) → Decidable (charListLe l1 l2)
  | [], _ => .isTrue trivial
  | _ :: _, [] => .isFalse (fun h => h)
  | _a :: as, _b :: bs =>
      haveI : Decidable (charListLe as bs) := charListLe.dec as bs
      inferInstanceAs (Decidable (_ ∨ _ ∧ _))

/-- String order used by `sorted` and by `groupby`'s key ordering. -/
def strLe (a b : String) : Prop := charListLe a.toList b.toList

instance : DecidableRel strLe := fun a b => by
  unfold strLe; infer_instance

/-- `drop_duplicates` / `Series.unique`: keep the first occurrence of each
value, preserving encounter order. -/
def dedupKeepFirst [DecidableEq α] (l : List α) : List α :=
  go l []
where
  go : List α → List α → List α
  | [], _ => []
  | a :: r, seen => if a ∈ seen then go r seen else a :: go r (a :: seen)

/-! ### Raw extracts (rows of `Clients.csv`, `Produits.csv`, `Ventes.csv`) -/

/-- One raw row of `Clients.csv` as `read_csv` hands it over. -/
structure RawClient where
  client_id : String
  nom : String
  ville : String
  pays : String
  segment : String
deriving DecidableEq, Repr

/-- One raw row of `Produits.csv`. -/
structure RawProduit where
  produit_id : String
  nom_produit : String
  categorie : String
  prix : String
deriving DecidableEq, Repr

/-- One raw row of `Ventes.csv`. -/
structure RawVente where
  vente_id : String
  client_id : String
  produit_id : String
  date : String
  quantite : String
  montant : String
deriving DecidableEq, Repr

/-! ### Typed warehouse rows -/

/-- A `Dim_Clients` row (post-cleaning, `client_id` coerced numeric). -/
structure Client where
  client_id : Rat
  nom : String
  ville : String
  pays : String
  segment : String
deriving DecidableEq, Repr

/-- A `Dim_Produits` row. -/
structure Produit where
  produit_id : Rat
  nom_produit : String
  categorie : String
  prix : Rat
deriving DecidableEq, Repr

/-- A `Fact_Ventes` row. -/
structure Vente where
  vente_id : Rat
  client_id : Rat
  produit_id : Rat
  date : Date
  quantite : Rat
  montant : Rat
deriving DecidableEq, Repr

/-- A `Dim_Temps` row. -/
structure TempsRow where
  date : Date
  annee : Nat
  mois : Nat
  jour : Nat
  trimestre : Nat
deriving DecidableEq, Repr

/-- The four persisted warehouse tables. -/
structure Warehouse where
  dim_clients : List Client
  dim_produits : List Produit
  dim_temps : List TempsRow
  fact_ventes : List Vente
deriving DecidableEq, Repr

/-! ### ETL per-table pipelines (`run_etl`) -/

/-- `clean_quotes` over one client row. -/
def cleanClient (r : RawClient) : RawClient :=
  ⟨cleanCell r.client_id, cleanCell r.nom, cleanCell r.ville,
   cleanCell r.pays, cleanCell r.segment⟩

/-- `clean_quotes` over one product row. -/
def cleanProduit (r : RawProduit) : RawProduit :=
  ⟨cleanCell r.produit_id, cleanCell r.nom_produit,
   cleanCell r.categorie, cleanCell r.prix⟩

/-- `clean_quotes` over one sales row. -/
def cleanVente (r : RawVente) : RawVente :=
  ⟨cleanCell r.vente_id, cleanCell r.client_id, cleanCell r.produit_id,
   cleanCell r.date, cleanCell r.quantite, cleanCell r.montant⟩

/-- The country-alias map applied to `clients_df['pays']` by
`Series.replace` (exact full-cell matches only). -/
def countryMapping (p : String) : String :=
  if p = "États-Unis" then "USA"
  else if p = "United States" then "USA"
  else if p = "US" then "USA"
  else p

/-- Client row after the numeric coercion of `client_id` (which may be NaN). -/
structure ClientN where
  client_id : Option Rat
  nom : String
  ville : String
  pays : String
  segment : String

/-- Numeric coercion of one cleaned client row
(`pd.to_numeric(clients_df['client_id'])`). -/
def convClient (r : RawClient) : Except String ClientN := do
  let cid ← toNumericCell r.client_id
  pure ⟨cid, r.nom, r.ville, r.pays, r.segment⟩

/-- Coerce every client row, aborting on the first failure as the
column-wise `to_numeric` does. -/
def convClients : List RawClient → Except String (List ClientN)
  | [] => .ok []
  | r :: rs => do
      let c ← convClient r
      let cs ← convClients rs
      pure (c :: cs)

/-- Clients: clean, coerce `client_id`, `dropna` (string columns cannot be
NaN post-cleaning, so only a missing id drops a row), normalize `pays`,
`drop_duplicates`. -/
def clientsPipeline (raws : List RawClient) : Except String (List Client) := do
  let typed ← convClients (raws.map cleanClient)
  let dropped := typed.filterMap (fun r =>
    r.client_id.map (fun id => Client.mk id r.nom r.ville r.pays r.segment))
  let mapped := dropped.map (fun c => { c with pays := countryMapping c.pays })
  pure (dedupKeepFirst mapped)

/-- Product row after numeric coercion of `produit_id` and `prix`. -/
structure ProduitN where
  produit_id : Option Rat
  nom_produit : String
  categorie : String
  prix : Option Rat

/-- Numeric coercion of one cleaned product row. -/
def convProduit (r : RawProduit) : Except String ProduitN := do
  let pid ← toNumericCell r.produit_id
  let px ← toNumericCell r.prix
  pure ⟨pid, r.nom_produit, r.categorie, px⟩

/-- Coerce every product row. -/
def convProduits : List RawProduit → Except String (List ProduitN)
  | [] => .ok []
  | r :: rs => do
      let p ← convProduit r
      let ps ← convProduits rs
      pure (p :: ps)

/-- Products: clean, coerce, `dropna` (drops a row whose id or price is
missing), `drop_duplicates`. -/
def produitsPipeline (raws : List RawProduit) : Except String (List Produit) := do
  let typed ← convProduits (raws.map cleanProduit)
  let dropped := typed.filterMap (fun r =>
    match r.produit_id, r.prix with
    | some id, some px => some (Produit.mk id r.nom_produit r.categorie px)
    | _, _ => none)
  pure (dedupKeepFirst dropped)

/-- Sales row after numeric coercion of the five numeric columns and the
permissive date parse (`errors='coerce'`). -/
structure VenteN where
  vente_id : Option Rat
  client_id : Option Rat
  produit_id : Option Rat
  quantite : Option Rat
  montant : Option Rat
  date : Option Date

/-- Coercions of one cleaned sales row: the five `to_numeric` columns
(`errors='raise'`), then `to_datetime(..., errors='coerce')` on `date`. -/
def convVente (r : RawVente) : Except String VenteN := do
  let vid ← toNumericCell r.vente_id
  let cid ← toNumericCell r.client_id
  let pid ← toNumericCell r.produit_id
  let q ← toNumericCell r.quantite
  let m ← toNumericCell r.montant
  pure ⟨vid, cid, pid, q, m, parseDate r.date⟩

/-- Coerce every sales row. -/
def convVentes : List RawVente → Except String (List VenteN)
  | [] => .ok []
  | r :: rs => do
      let v ← convVente r
      let vs ← convVentes rs
      pure (v :: vs)

/-- Sales: clean, coerce, `dropna(subset=['date'])` (drops rows whose date
failed to parse), full `dropna`, `drop_duplicates`. -/
def ventesPipeline (raws : List RawVente) : Except String (List Vente) := do
  let typed ← convVentes (raws.map cleanVente)
  let withDate := typed.filterMap (fun r =>
    r.date.map (fun d =>
      (r.vente_id, r.client_id, r.produit_id, r.quantite, r.montant, d)))
  let dropped := withDate.filterMap (fun r =>
    match r with
    | (some vid, some cid, some pid, some q, some m, d) =>
        some (Vente.mk vid cid pid d q m)
    | _ => none)
  pure (dedupKeepFirst dropped)

/-- `dt.quarter` on a date: pandas computes `(month - 1) // 3 + 1`. -/
def TempsRow.ofDate (d : Date) : TempsRow :=
  ⟨d, d.year, d.month, d.day, (d.month - 1) / 3 + 1⟩

/-- Order used by `dim_temps.sort_values('date')`. -/
def tempsLe (a b : TempsRow) : Prop := Date.le a.date b.date

instance : DecidableRel tempsLe := fun a b => by
  unfold tempsLe; infer_instance

/-- `Dim_Temps`: first-occurrence-unique sale dates, calendar attributes,
sorted ascending by date. -/
def dimTempsOf (ventes : List Vente) : List TempsRow :=
  List.insertionSort tempsLe
    ((dedupKeepFirst (ventes.map (·.date))).map TempsRow.ofDate)

/-- `run_etl`, from the three source files (`none` = file absent, the
`FileNotFoundError` branch of the `try`) to the four warehouse tables.
Any exception inside the `try` block makes the whole run return with no
output. The per-table cleaning steps are grouped by table; they are
independent across tables, and the error precedence (clients coercion
first, then products, then sales) matches the source order. -/
def runEtl (cs? : Option (List RawClient)) (ps? : Option (List RawProduit))
    (vs? : Option (List RawVente)) : Except String Warehouse := do
  let cs ← match cs? with
    | some cs => Except.ok cs
    | none => Except.error "FileNotFoundError: Clients.csv"
  let ps ← match ps? with
    | some ps => Except.ok ps
    | none => Except.error "FileNotFoundError: Produits.csv"
  let vs ← match vs? with
    | some vs => Except.ok vs
    | none => Except.error "FileNotFoundError: Ventes.csv"
  let dim_clients ← clientsPipeline cs
  let dim_produits ← produitsPipeline ps
  let fact_ventes ← ventesPipeline vs
  pure ⟨dim_clients, dim_produits, dimTempsOf fact_ventes, fact_ventes⟩

/-! ### Cube assembly (`load_and_merge_data` in `dashboard.py`) -/

/-- One denormalized cube row: the fact columns plus the (nullable, because
the joins are `how='left'`) attributes of the three dimensions. -/
structure CubeRow where
  vente_id : Rat
  client_id : Rat
  produit_id : Rat
  date : Date
  quantite : Rat
  montant : Rat
  nom : Option String
  ville : Option String
  pays : Option String
  segment : Option String
  nom_produit : Option String
  categorie : Option String
  prix : Option Rat
  annee : Option Nat
  mois : Option Nat
  jour : Option Nat
  trimestre : Option Nat
deriving DecidableEq, Repr

/-- `pd.merge(xs, dims, on=key, how='left')`: each left row is paired with
every dimension row of equal key, or kept once with a missing right side
when no key matches. -/
def mergeLeft [DecidableEq κ] (xs : List α) (key : α → κ)
    (dims : List δ) (dkey : δ → κ) (comb : α → Option δ → β) : List β :=
  xs.flatMap (fun x =>
    match dims.filter (fun d => decide (dkey d = key x)) with
    | [] => [comb x none]
    | ms => ms.map (fun d => comb x (some d)))

/-- Fact row with the client columns attached (after `fact ⟕ clients`);
product and time columns still pending (missing). -/
def CubeRow.ofVente (v : Vente) (c : Option Client) : CubeRow :=
  ⟨v.vente_id, v.client_id, v.produit_id, v.date, v.quantite, v.montant,
   c.map Client.nom, c.map Client.ville, c.map Client.pays, c.map Client.segment,
   none, none, none, none, none, none, none⟩

/-- Attach the product columns (after `⟕ produits`). -/
def CubeRow.withProduit (r : CubeRow) (p : Option Produit) : CubeRow :=
  { r with nom_produit := p.map Produit.nom_produit,
           categorie := p.map Produit.categorie,
           prix := p.map Produit.prix }

/-- Attach the time columns (after `⟕ temps`). -/
def CubeRow.withTemps (r : CubeRow) (t : Option TempsRow) : CubeRow :=
  { r with annee := t.map TempsRow.annee,
           mois := t.map TempsRow.mois,
           jour := t.map TempsRow.jour,
           trimestre := t.map TempsRow.trimestre }

/-- The cube: fact left-joined to clients, then products, then time.
(The dashboard re-coerces ids and dates after reading the warehouse back
from CSV; in the embedding the typed values round-trip unchanged, so those
coercions are identities.) -/
def loadAndMerge (w : Warehouse) : List CubeRow :=
  let cube1 := mergeLeft w.fact_ventes Vente.client_id
    w.dim_clients Client.client_id CubeRow.ofVente
  let cube2 := mergeLeft cube1 CubeRow.produit_id
    w.dim_produits Produit.produit_id CubeRow.withProduit
  mergeLeft cube2 CubeRow.date w.dim_temps TempsRow.date CubeRow.withTemps

/-- `load_and_merge_data` including its `FileNotFoundError` branch: if any
warehouse CSV is absent the function returns `None` instead of a cube. -/
def loadAndMergeData (dc? : Option (List Client)) (dp? : Option (List Produit))
    (dt? : Option (List TempsRow)) (f? : Option (List Vente)) :
    Option (List CubeRow) :=
  match dc?, dp?, dt?, f? with
  | some dc, some dp, some dt, some f => some (loadAndMerge ⟨dc, dp, dt, f⟩)
  | _, _, _, _ => none

/-! ### Aggregation engine (`main` in `dashboard.py`) -/

/-- `sorted(df['annee'].dropna().unique())`. -/
def anneesDispo (df : List CubeRow) : List Nat :=
  List.insertionSort (· ≤ ·) (dedupKeepFirst (df.filterMap CubeRow.annee))

/-- `sorted(df['pays'].dropna().astype(str).unique())`. -/
def paysDispo (df : List CubeRow) : List String :=
  List.insertionSort strLe (dedupKeepFirst (df.filterMap CubeRow.pays))

/-- `sorted(df['categorie'].dropna().astype(str).unique())`. -/
def categoriesDispo (df : List CubeRow) : List String :=
  List.insertionSort strLe (dedupKeepFirst (df.filterMap CubeRow.categorie))

/-- `Series.isin` on a nullable cell: a NaN cell is never in the allowed
list. -/
def optIn [DecidableEq α] (v : Option α) (allowed : List α) : Bool :=
  match v with
  | some x => decide (x ∈ allowed)
  | none => false

/-- The filtered cube: conjunction of the three `isin` masks. -/
def filteredDf (df : List CubeRow) (years : List Nat)
    (countries cats : List String) : List CubeRow :=
  df.filter (fun r =>
    optIn r.annee years && optIn r.pays countries && optIn r.categorie cats)

/-- KPI `filtered_df['montant'].sum()` (pandas sums an empty or all-NaN
series to 0; `montant` is never NaN in the cube). -/
def totalVentes (df : List CubeRow) : Rat :=
  ratSum (df.map CubeRow.montant)

/-- KPI `filtered_df['quantite'].sum()`. -/
def totalQuantite (df : List CubeRow) : Rat :=
  ratSum (df.map CubeRow.quantite)

/-- KPI `filtered_df['prix'].mean()`: pandas skips NaN values and returns
NaN (here `none`) when no non-null value remains. -/
def prixMoyen (df : List CubeRow) : Option Rat :=
  let ps := df.filterMap CubeRow.prix
  if ps.isEmpty then none else some (ratDivNat (ratSum ps) ps.length)

/-- `groupby(k)[v].sum()` with pandas defaults: NaN keys are dropped by the
caller, group keys are emitted in ascending sorted order (`sort=True`),
each group carries the sum of its values. -/
def groupbySum (pairs : List (String × Rat)) : List (String × Rat) :=
  (List.insertionSort strLe (dedupKeepFirst (pairs.map Prod.fst))).map
    (fun k => (k, ratSum ((pairs.filter (fun p => decide (p.1 = k))).map Prod.snd)))

/-- Descending order on summed quantities, the key of
`sort_values('quantite', ascending=False)`. -/
def qtyGe (a b : String × Rat) : Prop := b.2 ≤ a.2

instance : DecidableRel qtyGe := fun a b => by
  unfold qtyGe; infer_instance

/-- `groupby('nom_produit')['quantite'].sum() ... sort_values('quantite',
ascending=False).head(10)`; `sort_values` is modelled as a stable sort,
so ties keep the ascending-name order `groupby` produced. -/
def topProduits (df : List CubeRow) : List (String × Rat) :=
  (List.insertionSort qtyGe
    (groupbySum (df.filterMap (fun r =>
      r.nom_produit.map (fun n => (n, r.quantite)))))).take 10

/-! ### CSV serialization (`to_csv(index=False)`), for the determinism
property. An injective textual rendering of values stands in for pandas
number formatting. -/

/-- Render a rational cell. -/
def ratToCsv (q : Rat) : String :=
  if q.den = 1 then toString q.num
  else toString q.num ++ "/" ++ toString q.den

/-- Render a date cell as ISO `YYYY-MM-DD`. -/
def dateToCsv (d : Date) : String :=
  let pad : Nat → String := fun n =>
    if n < 10 then "0" ++ toString n else toString n
  toString d.year ++ "-" ++ pad d.month ++ "-" ++ pad d.day

/-- Render one CSV line. -/
def csvLine (cells : List String) : String :=
  String.intercalate "," cells ++ "\n"

/-- `dim_clients.to_csv('Dim_Clients.csv', index=False)`. -/
def dimClientsCsv (l : List Client) : String :=
  csvLine ["client_id", "nom", "ville", "pays", "segment"] ++
    String.join (l.map (fun c =>
      csvLine [ratToCsv c.client_id, c.nom, c.ville, c.pays, c.segment]))

/-- `dim_produits.to_csv('Dim_Produits.csv', index=False)`. -/
def dimProduitsCsv (l : List Produit) : String :=
  csvLine ["produit_id", "nom_produit", "categorie", "prix"] ++
    String.join (l.map (fun p =>
      csvLine [ratToCsv p.produit_id, p.nom_produit, p.categorie, ratToCsv p.prix]))

/-- `dim_temps.to_csv('Dim_Temps.csv', index=False)`. -/
def dimTempsCsv (l : List TempsRow) : String :=
  csvLine ["date", "annee", "mois", "jour", "trimestre"] ++
    String.join (l.map (fun t =>
      csvLine [dateToCsv t.date, toString t.annee, toString t.mois,
               toString t.jour, toString t.trimestre]))

/-- `fact_ventes.to_csv('Fact_Ventes.csv', index=False)`. -/
def factVentesCsv (l : List Vente) : String :=
  csvLine ["vente_id", "client_id", "produit_id", "date", "quantite", "montant"] ++
    String.join (l.map (fun v =>
      csvLine [ratToCsv v.vente_id, ratToCsv v.client_id, ratToCsv v.produit_id,
               dateToCsv v.date, ratToCsv v.quantite, ratToCsv v.montant]))

/-- The files `run_etl` writes: the four warehouse CSVs on success, nothing
at all when the run aborted (the `except` branch returns before any
`to_csv` call). -/
def etlOutputs (cs? : Option (List RawClient)) (ps? : Option (List RawProduit))
    (vs? : Option (List RawVente)) : List (String × String) :=
  match runEtl cs? ps? vs? with
  | .error _ => []
  | .ok w =>
      [("Dim_Clients.csv", dimClientsCsv w.dim_clients),
       ("Dim_Produits.csv", dimProduitsCsv w.dim_produits),
       ("Dim_Temps.csv", dimTempsCsv w.dim_temps),
       ("Fact_Ventes.csv", factVentesCsv w.fact_ventes)]

/-- Single left-join lookup of one fact row against the three dimensions:
what each cube row is when every dimension key is unique. -/
def cubeRowOf (w : Warehouse) (v : Vente) : CubeRow :=
  ((CubeRow.ofVente v
      (w.dim_clients.find? (fun c => decide (c.client_id = v.client_id)))).withProduit
    (w.dim_produits.find? (fun p => decide (p.produit_id = v.produit_id)))).withTemps
    (w.dim_temps.find? (fun t => decide (t.date = v.date)))

instance : IsTotal TempsRow tempsLe :=
  ⟨fun a b => by unfold tempsLe Date.le; omega⟩

instance : IsTrans TempsRow tempsLe :=
  ⟨fun a b c hab hbc => by unfold tempsLe Date.le at hab hbc ⊢; omega⟩

instance : IsTotal (String × Rat) qtyGe :=
  ⟨fun a b => by unfold qtyGe; exact le_total b.2 a.2⟩

instance : IsTrans (String × Rat) qtyGe :=
  ⟨fun a b c hab hbc => by unfold qtyGe at hab hbc ⊢; exact le_trans hbc hab⟩

/-! ### Concrete fixtures used by witnesses and counterexamples -/

/-- Example `Clients.csv` (fully quoted fields, one alias country). -/
def cEx : List RawClient :=
  [⟨"\"1\"", "\"Alice\"", "\"Paris\"", "\"France\"", "\"PME\""⟩,
   ⟨"\"2\"", "\"Bob\"", "\"New York\"", "\"États-Unis\"", "\"GE\""⟩]

/-- Example `Produits.csv`. -/
def pEx : List RawProduit :=
  [⟨"\"10\"", "\"Widget\"", "\"Gadgets\"", "\"9.99\""⟩]

/-- Example `Ventes.csv` (two sales, dates out of order). -/
def vEx : List RawVente :=
  [⟨"\"100\"", "\"1\"", "\"10\"", "\"2023-04-02\"", "\"2\"", "\"19.98\""⟩,
   ⟨"\"101\"", "\"2\"", "\"10\"", "\"2023-01-15\"", "\"1\"", "\"9.99\""⟩]

/-- The warehouse the ETL builds from the example extracts. -/
def wEx : Warehouse :=
  ⟨[⟨1, "Alice", "Paris", "France", "PME"⟩,
    ⟨2, "Bob", "New York", "USA", "GE"⟩],
   [⟨10, "Widget", "Gadgets", mkRat 999 100⟩],
   [⟨⟨2023, 1, 15⟩, 2023, 1, 15, 1⟩, ⟨⟨2023, 4, 2⟩, 2023, 4, 2, 2⟩],
   [⟨100, 1, 10, ⟨2023, 4, 2⟩, 2, mkRat 999 50⟩,
    ⟨101, 2, 10, ⟨2023, 1, 15⟩, 1, mkRat 999 100⟩]⟩

/-- A warehouse whose client dimension repeats a key: two distinct client
rows share `client_id = 1`. -/
def wDup : Warehouse :=
  ⟨[⟨1, "Alice", "Paris", "France", "PME"⟩,
    ⟨1, "Alise", "Lyon", "France", "PME"⟩],
   [⟨10, "Widget", "Gadgets", mkRat 999 100⟩],
   [⟨⟨2023, 4, 2⟩, 2023, 4, 2, 2⟩],
   [⟨100, 1, 10, ⟨2023, 4, 2⟩, 2, mkRat 999 50⟩]⟩

/-- A sales row whose `quantite` cell is not numeric. -/
def vBadQty : RawVente :=
  ⟨"\"102\"", "\"1\"", "\"10\"", "\"2023-02-01\"", "\"abc\"", "\"5.00\""⟩

/-- A sales row whose `date` cell does not parse (February 30th). -/
def vBadDate : RawVente :=
  ⟨"\"103\"", "\"1\"", "\"10\"", "\"2023-02-30\"", "\"3\"", "\"7.50\""⟩

/-- A cube row carrying a null country (its `client_id` found no match)
but non-null year and category. -/
def rowNullPays : CubeRow :=
  ⟨100, 7, 10, ⟨2023, 4, 2⟩, 2, mkRat 999 50,
   none, none, none, none,
   some "Widget", some "Gadgets", some (mkRat 999 100),
   some 2023, some 4, some 2, some 2⟩

/-- A one-row cube whose only row has a null country. -/
def dfNullPays : List CubeRow := [rowNullPays]

/-- A cube with two products of equal total quantity, product "B"
encountered before product "A". -/
def dfTie : List CubeRow :=
  [⟨100, 1, 10, ⟨2023, 4, 2⟩, 5, mkRat 10 1,
    some "Alice", some "Paris", some "France", some "PME",
    some "B", some "Gadgets", some (mkRat 2 1),
    some 2023, some 4, some 2, some 2⟩,
   ⟨101, 1, 11, ⟨2023, 4, 2⟩, 5, mkRat 10 1,
    some "Alice", some "Paris", some "France", some "PME",
    some "A", some "Gadgets", some (mkRat 2 1),
    some 2023, some 4, some 2, some 2⟩]

/-! ### Supporting lemmas -/

/-- `ratAdd` agrees with rational addition. -/
theorem ratAdd_eq_add (a b : Rat) : ratAdd a b = a + b := by
  rw [Rat.add_def]
  simp [ratAdd, Rat.normalize_eq_mkRat, Int.mul_comm]

/-- `ratSum` agrees with `List.sum`. -/
theorem ratSum_eq_sum (l : List Rat) : ratSum l = l.sum := by
  induction l with
  | nil => rfl
  | cons a t ih => simp [ratSum, List.foldr_cons, ratAdd_eq_add, ih.symm, ratSum]

/-- `ratDivNat` agrees with division by the cast count. -/
theorem ratDivNat_eq_div (a : Rat) (n : Nat) : ratDivNat a n = a / (n : Rat) := by
  rw [ratDivNat, Rat.mkRat_eq_div]
  push_cast
  rw [div_mul_eq_div_div]
  congr 1
  exact_mod_cast Rat.num_div_den a

theorem mem_dedupKeepFirst_go [DecidableEq α] (l seen : List α) (a : α) :
    a ∈ dedupKeepFirst.go l seen ↔ a ∈ l ∧ a ∉ seen := by
  induction l generalizing seen with
  | nil => simp [dedupKeepFirst.go]
  | cons x t ih =>
      by_cases hx : x ∈ seen
      · rw [dedupKeepFirst.go, if_pos hx, ih]
        constructor
        · rintro ⟨h1, h2⟩; exact ⟨List.mem_cons_of_mem _ h1, h2⟩
        · rintro ⟨h1, h2⟩
          rcases List.mem_cons.mp h1 with rfl | h1
          · exact absurd hx h2
          · exact ⟨h1, h2⟩
      · rw [dedupKeepFirst.go, if_neg hx]
        by_cases hax : a = x
        · subst hax; simp [hx]
        · simp only [List.mem_cons, hax, false_or, ih]

/-- Membership is unchanged by `drop_duplicates`. -/
theorem mem_dedupKeepFirst [DecidableEq α] (l : List α) (a : α) :
    a ∈ dedupKeepFirst l ↔ a ∈ l := by
  rw [dedupKeepFirst, mem_dedupKeepFirst_go]
  simp

theorem nodup_dedupKeepFirst_go [DecidableEq α] (l seen : List α) :
    (dedupKeepFirst.go l seen).Nodup := by
  induction l generalizing seen with
  | nil => exact List.nodup_nil
  | cons x t ih =>
      rw [dedupKeepFirst.go]
      by_cases hx : x ∈ seen
      · rw [if_pos hx]; exact ih seen
      · rw [if_neg hx]
        refine List.nodup_cons.mpr ⟨?_, ih _⟩
        rw [mem_dedupKeepFirst_go]
        rintro ⟨-, h⟩
        exact h (List.mem_cons_self x _)

/-- `drop_duplicates` leaves no duplicates. -/
theorem nodup_dedupKeepFirst [DecidableEq α] (l : List α) :
    (dedupKeepFirst l).Nodup :=
  nodup_dedupKeepFirst_go l []

theorem filter_key_of_nodup [DecidableEq κ] (dims : List δ) (dkey : δ → κ)
    (h : (dims.map dkey).Nodup) (k : κ) :
    dims.filter (fun d => decide (dkey d = k)) =
      (dims.find? (fun d => decide (dkey d = k))).toList := by
  induction dims with
  | nil => rfl
  | cons d ds ih =>
      simp only [List.map_cons, List.nodup_cons] at h
      by_cases hd : dkey d = k
      · have hnil : ds.filter (fun x => decide (dkey x = k)) = [] := by
          rw [List.filter_eq_nil_iff]
          intro x hx
          simp only [decide_eq_true_eq]
          intro hkx
          exact h.1 (hd ▸ hkx ▸ List.mem_map_of_mem dkey hx)
        rw [List.filter_cons, if_pos (by simp [hd]), hnil,
          List.find?_cons_of_pos _ (by simp [hd])]
        rfl
      · rw [List.filter_cons, if_neg (by simp [hd]),
          List.find?_cons_of_neg _ (by simp [hd]), ih h.2]

/-- When the dimension keys are unique, the left join pairs each left row
with the unique matching dimension row (or with `none`). -/
theorem mergeLeft_eq_map [DecidableEq κ] (xs : List α) (key : α → κ)
    (dims : List δ) (dkey : δ → κ) (comb : α → Option δ → β)
    (h : (dims.map dkey).Nodup) :
    mergeLeft xs key dims dkey comb =
      xs.map (fun x => comb x (dims.find? (fun d => decide (dkey d = key x)))) := by
  induction xs with
  | nil => rfl
  | cons x t ih =>
      simp only [mergeLeft, List.flatMap_cons, List.map_cons] at ih ⊢
      rw [filter_key_of_nodup dims dkey h]
      cases hf : dims.find? (fun d => decide (dkey d = key x)) with
      | none =>
          simp only [Option.toList, List.map_nil, List.singleton_append]
          rw [ih]
      | some d =>
          simp only [Option.toList, List.map_cons, List.map_nil,
            List.singleton_append]
          rw [ih]

/-- Any output row of a left join comes from a left row paired either with
a matching dimension row or with `none` when no key matches. -/
theorem mem_mergeLeft [DecidableEq κ] {y : β} {xs : List α} {key : α → κ}
    {dims : List δ} {dkey : δ → κ} {comb : α → Option δ → β}
    (hy : y ∈ mergeLeft xs key dims dkey comb) :
    ∃ x ∈ xs, (∃ d ∈ dims, dkey d = key x ∧ y = comb x (some d)) ∨
      ((∀ d ∈ dims, dkey d ≠ key x) ∧ y = comb x none) := by
  unfold mergeLeft at hy
  obtain ⟨x, hx, hmem⟩ := List.mem_flatMap.mp hy
  refine ⟨x, hx, ?_⟩
  cases hfil : dims.filter (fun d => decide (dkey d = key x)) with
  | nil =>
      rw [hfil] at hmem
      simp only [List.mem_singleton] at hmem
      right
      refine ⟨?_, hmem⟩
      intro d hd hkey
      have hdf : d ∈ dims.filter (fun d => decide (dkey d = key x)) :=
        List.mem_filter.mpr ⟨hd, by simp [hkey]⟩
      rw [hfil] at hdf
      exact absurd hdf (List.not_mem_nil d)
  | cons m ms =>
      rw [hfil] at hmem
      obtain ⟨d, hd, hy'⟩ := List.mem_map.mp hmem
      left
      have hdf : d ∈ dims.filter (fun d => decide (dkey d = key x)) := hfil ▸ hd
      have h2 := List.mem_filter.mp hdf
      exact ⟨d, h2.1, by simpa using h2.2, hy'.symm⟩

theorem except_bind_ok {α β : Type} (a : α) (f : α → Except String β) :
    (Except.ok a >>= f : Except String β) = f a := rfl

theorem except_bind_error {α β : Type} (e : String) (f : α → Except String β) :
    (Except.error e >>= f : Except String β) = .error e := rfl

/-- A coerced date is calendar-valid. -/
theorem parseDate_valid {s : String} {d : Date} (h : parseDate s = some d) :
    ValidDate d := by
  unfold parseDate at h
  split at h
  · split at h
    · split at h
      · exact Option.some_injective _ h ▸ ‹ValidDate _›
      · exact absurd h (by simp)
    all_goals exact absurd h (by simp)
  · exact absurd h (by simp)

theorem loadAndMerge_eq_map (w : Warehouse)
    (hc : (w.dim_clients.map Client.client_id).Nodup)
    (hp : (w.dim_produits.map Produit.produit_id).Nodup)
    (ht : (w.dim_temps.map TempsRow.date).Nodup) :
    loadAndMerge w = w.fact_ventes.map (cubeRowOf w) := by
  show mergeLeft
      (mergeLeft
        (mergeLeft w.fact_ventes Vente.client_id w.dim_clients Client.client_id
          CubeRow.ofVente)
        CubeRow.produit_id w.dim_produits Produit.produit_id CubeRow.withProduit)
      CubeRow.date w.dim_temps TempsRow.date CubeRow.withTemps
    = w.fact_ventes.map (cubeRowOf w)
  rw [mergeLeft_eq_map _ _ _ _ _ hc, mergeLeft_eq_map _ _ _ _ _ hp,
    mergeLeft_eq_map _ _ _ _ _ ht, List.map_map, List.map_map]
  rfl

/-- C1 (amended): when each dimension's key column is duplicate-free, the
cube produced by the left-join chain fact ⟕ clients ⟕ produits ⟕ temps has
exactly one row per fact row, and a fact row whose key finds no dimension
match keeps its row with all of that dimension's attributes null. -/
theorem cube_card_eq_fact_card_of_unique_keys (w : Warehouse)
    (hc : (w.dim_clients.map Client.client_id).Nodup)
    (hp : (w.dim_produits.map Produit.produit_id).Nodup)
    (ht : (w.dim_temps.map TempsRow.date).Nodup) :
    (loadAndMerge w).length = w.fact_ventes.length ∧
    ∀ v ∈ w.fact_ventes, ∃ r ∈ loadAndMerge w,
      r.vente_id = v.vente_id ∧ r.client_id = v.client_id ∧
      r.produit_id = v.produit_id ∧ r.date = v.date ∧
      ((∀ c ∈ w.dim_clients, c.client_id ≠ v.client_id) →
        r.nom = none ∧ r.ville = none ∧ r.pays = none ∧ r.segment = none) ∧
      ((∀ p ∈ w.dim_produits, p.produit_id ≠ v.produit_id) →
        r.nom_produit = none ∧ r.categorie = none ∧ r.prix = none) ∧
      ((∀ t ∈ w.dim_temps, t.date ≠ v.date) →
        r.annee = none ∧ r.mois = none ∧ r.jour = none ∧ r.trimestre = none) := by
  refine ⟨by rw [loadAndMerge_eq_map w hc hp ht, List.length_map], ?_⟩
  intro v hv
  refine ⟨cubeRowOf w v,
    by rw [loadAndMerge_eq_map w hc hp ht]; exact List.mem_map_of_mem _ hv,
    rfl, rfl, rfl, rfl, ?_, ?_, ?_⟩
  · intro hnone
    have hfind : w.dim_clients.find? (fun c => decide (c.client_id = v.client_id))
        = none :=
      List.find?_eq_none.mpr (fun c hc' => by simp [hnone c hc'])
    simp [cubeRowOf, CubeRow.ofVente, CubeRow.withProduit, CubeRow.withTemps,
      hfind]
  · intro hnone
    have hfind : w.dim_produits.find?
        (fun p => decide (p.produit_id = v.produit_id)) = none :=
      List.find?_eq_none.mpr (fun p hp' => by simp [hnone p hp'])
    simp [cubeRowOf, CubeRow.ofVente, CubeRow.withProduit, CubeRow.withTemps,
      hfind]
  · intro hnone
    have hfind : w.dim_temps.find? (fun t => decide (t.date = v.date)) = none :=
      List.find?_eq_none.mpr (fun t ht' => by simp [hnone t ht'])
    simp [cubeRowOf, CubeRow.ofVente, CubeRow.withProduit, CubeRow.withTemps,
      hfind]

/-- Witness for C1 at the example warehouse (its dimension keys are
unique). -/
theorem cube_card_eq_fact_card_witness :
    (loadAndMerge wEx).length = wEx.fact_ventes.length :=
  (cube_card_eq_fact_card_of_unique_keys wEx (by decide) (by decide)
    (by decide)).1

/-- C1 counterexample: with a duplicated `client_id` in `Dim_Clients`
(which `drop_duplicates` does not prevent, since the two rows differ in
other columns), the left join multiplies the fact row and the cube has
more rows than the fact table. -/
theorem cube_card_ne_fact_card_on_dup_key :
    ¬ ((loadAndMerge wDup).length = wDup.fact_ventes.length) := by decide

theorem optIn_nil [DecidableEq α] (v : Option α) : optIn v [] = false := by
  cases v <;> simp [optIn]

/-- C3 (amended): when every cube row carries non-null year, country and
category, filtering with the full observed domains is the identity; a
filter whose allowed-set is empty always yields zero rows (this part needs
no hypothesis). The amendment: a row holding a null in a filterable
attribute is dropped even by the full-domain filter, because the observed
domains exclude nulls and `isin` never matches NaN. -/
theorem full_domain_filter_identity (df : List CubeRow)
    (h : ∀ r ∈ df, r.annee.isSome ∧ r.pays.isSome ∧ r.categorie.isSome) :
    filteredDf df (anneesDispo df) (paysDispo df) (categoriesDispo df) = df ∧
    (∀ ys ks, filteredDf df ys [] ks = []) ∧
    (∀ pcs ks, filteredDf df [] pcs ks = []) ∧
    (∀ ys pcs, filteredDf df ys pcs [] = []) := by
  refine ⟨?_, ?_, ?_, ?_⟩
  · unfold filteredDf
    apply List.filter_eq_self.mpr
    intro r hr
    obtain ⟨ha, hp, hk⟩ := h r hr
    obtain ⟨y, hy⟩ := Option.isSome_iff_exists.mp ha
    obtain ⟨p, hpv⟩ := Option.isSome_iff_exists.mp hp
    obtain ⟨k, hkv⟩ := Option.isSome_iff_exists.mp hk
    have hy' : y ∈ anneesDispo df := by
      unfold anneesDispo
      rw [List.mem_insertionSort, mem_dedupKeepFirst]
      exact List.mem_filterMap.mpr ⟨r, hr, hy⟩
    have hp' : p ∈ paysDispo df := by
      unfold paysDispo
      rw [List.mem_insertionSort, mem_dedupKeepFirst]
      exact List.mem_filterMap.mpr ⟨r, hr, hpv⟩
    have hk' : k ∈ categoriesDispo df := by
      unfold categoriesDispo
      rw [List.mem_insertionSort, mem_dedupKeepFirst]
      exact List.mem_filterMap.mpr ⟨r, hr, hkv⟩
    simp [optIn, hy, hpv, hkv, hy', hp', hk']
  · intro ys ks
    exact List.filter_eq_nil_iff.mpr (fun r _ => by simp [optIn_nil])
  · intro pcs ks
    exact List.filter_eq_nil_iff.mpr (fun r _ => by simp [optIn_nil])
  · intro ys pcs
    exact List.filter_eq_nil_iff.mpr (fun r _ => by simp [optIn_nil])

/-- Witness for C3 at the example cube (no nulls there). -/
theorem full_domain_filter_identity_witness :
    filteredDf (loadAndMerge wEx) (anneesDispo (loadAndMerge wEx))
      (paysDispo (loadAndMerge wEx)) (categoriesDispo (loadAndMerge wEx)) =
      loadAndMerge wEx :=
  (full_domain_filter_identity (loadAndMerge wEx) (by decide)).1

/-- C3 counterexample: on a cube holding one row with a null country, the
full-domain filters drop that row — the filter is not a no-op. -/
theorem full_domain_filter_drops_null_country_row :
    filteredDf dfNullPays (anneesDispo dfNullPays) (paysDispo dfNullPays)
      (categoriesDispo dfNullPays) ≠ dfNullPays := by decide

/-- C4: on an empty filtered subset, the amount and quantity KPIs are 0 and
the mean price is the distinct undefined state `none` (pandas `NaN`), with
no exception anywhere. -/
theorem kpis_on_empty_filtered_subset (df : List CubeRow) (ys : List Nat)
    (pcs ks : List String) (h : filteredDf df ys pcs ks = []) :
    totalVentes (filteredDf df ys pcs ks) = 0 ∧
    totalQuantite (filteredDf df ys pcs ks) = 0 ∧
    prixMoyen (filteredDf df ys pcs ks) = none := by
  rw [h]
  exact ⟨rfl, rfl, rfl⟩

/-- Witness for C4: fully-exclusive (empty) allowed-sets on the example
cube. -/
theorem kpis_on_empty_filtered_subset_witness :
    totalVentes (filteredDf (loadAndMerge wEx) [] [] []) = 0 ∧
    totalQuantite (filteredDf (loadAndMerge wEx) [] [] []) = 0 ∧
    prixMoyen (filteredDf (loadAndMerge wEx) [] [] []) = none :=
  kpis_on_empty_filtered_subset (loadAndMerge wEx) [] [] [] (by rfl)

/-- C6: the three aliases "États-Unis", "United States", "US" map to the
single canonical token "USA", any other country string is left unchanged,
and every country in the finalized client dimension has passed through the
mapping. -/
theorem country_alias_canonical :
    countryMapping "États-Unis" = "USA" ∧
    countryMapping "United States" = "USA" ∧
    countryMapping "US" = "USA" ∧
    (∀ s, s ≠ "États-Unis" → s ≠ "United States" → s ≠ "US" →
      countryMapping s = s) ∧
    (∀ cs dims, clientsPipeline cs = .ok dims →
      ∀ c ∈ dims, ∃ p, c.pays = countryMapping p) := by
  refine ⟨rfl, rfl, rfl, ?_, ?_⟩
  · intro s h1 h2 h3
    simp [countryMapping, h1, h2, h3]
  · intro cs dims h c hc
    unfold clientsPipeline at h
    cases hcv : convClients (cs.map cleanClient) with
    | error e =>
        rw [hcv, except_bind_error] at h
        exact absurd h (by simp)
    | ok typed =>
        rw [hcv, except_bind_ok] at h
        have hdims : dedupKeepFirst
            ((typed.filterMap (fun r => r.client_id.map
              (fun id => Client.mk id r.nom r.ville r.pays r.segment))).map
              (fun c => { c with pays := countryMapping c.pays })) = dims := by
          exact Except.ok.inj h
        rw [← hdims, mem_dedupKeepFirst] at hc
        obtain ⟨c0, _, rfl⟩ := List.mem_map.mp hc
        exact ⟨c0.pays, rfl⟩

/-- Witness for C6: a country outside the alias map is unchanged, and a
dimension row produced by the pipeline on the example extract has a
mapped country. -/
theorem country_alias_canonical_witness :
    countryMapping "France" = "France" ∧
    ∃ p, (Client.mk 2 "Bob" "New York" "USA" "GE").pays = countryMapping p := by
  constructor
  · exact country_alias_canonical.2.2.2.1 "France" (by decide) (by decide)
      (by decide)
  · exact country_alias_canonical.2.2.2.2 cEx wEx.dim_clients (by rfl)
      (Client.mk 2 "Bob" "New York" "USA" "GE") (by decide)

/-- C8: a missing `Clients.csv`, `Produits.csv` or `Ventes.csv` makes the
ETL return with an error and write no warehouse file at all, and a missing
warehouse CSV makes `load_and_merge_data` return `None` instead of a
cube. -/
theorem missing_input_fatal_no_output :
    (∀ ps? vs?, (runEtl none ps? vs?).isOk = false ∧
      etlOutputs none ps? vs? = []) ∧
    (∀ cs? vs?, (runEtl cs? none vs?).isOk = false ∧
      etlOutputs cs? none vs? = []) ∧
    (∀ cs? ps?, (runEtl cs? ps? none).isOk = false ∧
      etlOutputs cs? ps? none = []) ∧
    (∀ dp? dt? f?, loadAndMergeData none dp? dt? f? = none) ∧
    (∀ dc? dt? f?, loadAndMergeData dc? none dt? f? = none) ∧
    (∀ dc? dp? f?, loadAndMergeData dc? dp? none f? = none) ∧
    (∀ dc? dp? dt?, loadAndMergeData dc? dp? dt? none = none) := by
  refine ⟨?_, ?_, ?_, ?_, ?_, ?_, ?_⟩
  · intro ps? vs?; exact ⟨rfl, rfl⟩
  · intro cs? vs?; cases cs? <;> exact ⟨rfl, rfl⟩
  · intro cs? ps?; cases cs? <;> cases ps? <;> exact ⟨rfl, rfl⟩
  · intro dp? dt? f?; cases dp? <;> cases dt? <;> cases f? <;> rfl
  · intro dc? dt? f?; cases dc? <;> cases dt? <;> cases f? <;> rfl
  · intro dc? dp? f?; cases dc? <;> cases dp? <;> cases f? <;> rfl
  · intro dc? dp? dt?; cases dc? <;> cases dp? <;> cases dt? <;> rfl

/-- C9: the serialized warehouse files are a function of the three input
files alone — two runs on equal inputs write byte-identical CSVs. The
embedded `run_etl` reads nothing but its three inputs (the source uses no
clock, randomness or other ambient state), so determinism is visible in
the type of `etlOutputs`. -/
theorem etl_outputs_deterministic (cs1 cs2 : Option (List RawClient))
    (ps1 ps2 : Option (List RawProduit)) (vs1 vs2 : Option (List RawVente))
    (hc : cs1 = cs2) (hp : ps1 = ps2) (hv : vs1 = vs2) :
    etlOutputs cs1 ps1 vs1 = etlOutputs cs2 ps2 vs2 := by
  subst hc; subst hp; subst hv; rfl

/-- Witness for C9 at the example extracts. -/
theorem etl_outputs_deterministic_witness :
    etlOutputs (some cEx) (some pEx) (some vEx) =
      etlOutputs (some cEx) (some pEx) (some vEx) :=
  etl_outputs_deterministic _ _ _ _ _ _ rfl rfl rfl

theorem except_pure {α : Type} (a : α) :
    (pure a : Except String α) = .ok a := rfl

theorem convVentes_append (l1 l2 : List RawVente) :
    convVentes (l1 ++ l2) =
      match convVentes l1 with
      | .error e => .error e
      | .ok a =>
          match convVentes l2 with
          | .error e => .error e
          | .ok b => .ok (a ++ b) := by
  induction l1 with
  | nil =>
      cases h2 : convVentes l2 <;> simp [convVentes, h2]
  | cons r rs ih =>
      rw [List.cons_append, convVentes, convVentes]
      cases hc : convVente r with
      | error e => simp [except_bind_error]
      | ok v =>
          simp only [except_bind_ok]
          rw [ih]
          cases h1 : convVentes rs <;> cases h2 : convVentes l2 <;>
            simp [except_bind_ok, except_bind_error, except_pure]

/-- Dropping behaviour of the sales pipeline: a row whose numeric columns
coerce but whose date fails `to_datetime` is removed by
`dropna(subset=['date'])`, leaving the rest of the run untouched. -/
theorem ventesPipeline_drops_bad_date (vs1 vs2 : List RawVente)
    (bad : RawVente) (vn : VenteN)
    (hconv : convVente (cleanVente bad) = .ok vn) (hdate : vn.date = none) :
    ventesPipeline (vs1 ++ bad :: vs2) = ventesPipeline (vs1 ++ vs2) := by
  unfold ventesPipeline
  rw [List.map_append, List.map_cons, List.map_append,
    convVentes_append, convVentes_append, convVentes, hconv, except_bind_ok]
  cases h1 : convVentes (vs1.map cleanVente) with
  | error e => rfl
  | ok a =>
      cases h2 : convVentes (vs2.map cleanVente) with
      | error e => simp [except_bind_error]
      | ok b =>
          simp only [except_bind_ok, except_pure]
          have hskip : Option.map (fun d =>
              (vn.vente_id, vn.client_id, vn.produit_id, vn.quantite,
                vn.montant, d)) vn.date = none := by
            rw [hdate]; rfl
          simp [List.filterMap_append, List.filterMap_cons, hskip]

theorem convVentes_not_ok (rs : List RawVente) (bad : RawVente)
    (hmem : bad ∈ rs) (hbad : (convVente bad).isOk = false) :
    (convVentes rs).isOk = false := by
  induction rs with
  | nil => cases hmem
  | cons r t ih =>
      rw [convVentes]
      rcases List.mem_cons.mp hmem with rfl | hmem'
      · cases hc : convVente bad with
        | error e => simp [hc, except_bind_error, Except.isOk, Except.toBool]
        | ok v => rw [hc] at hbad; simp [Except.isOk, Except.toBool] at hbad
      · cases hc : convVente r with
        | error e => simp [hc, except_bind_error, Except.isOk, Except.toBool]
        | ok v =>
            simp only [hc, except_bind_ok]
            cases ht : convVentes t with
            | error e => simp [ht, Except.isOk, Except.toBool, Except.map]
            | ok l =>
                have hfalse := ih hmem'
                rw [ht] at hfalse
                simp [Except.isOk, Except.toBool] at hfalse

/-- C2 (amended): a sales row whose numeric columns coerce but whose date
fails to parse is dropped alone, the rest of the extract is processed
unchanged; but a sales row with an unparseable numeric field (quantity,
amount or an id) makes the whole run abort with an error, because
`pd.to_numeric` is called with its default `errors='raise'` and the
exception is caught only by the top-level handler that returns. -/
theorem etl_row_level_parse_handling :
    (∀ cs ps vs1 vs2 bad vn, convVente (cleanVente bad) = .ok vn →
      vn.date = none →
      runEtl (some cs) (some ps) (some (vs1 ++ bad :: vs2)) =
        runEtl (some cs) (some ps) (some (vs1 ++ vs2))) ∧
    (∀ cs ps vs bad, bad ∈ vs → (convVente (cleanVente bad)).isOk = false →
      (runEtl (some cs) (some ps) (some vs)).isOk = false) := by
  constructor
  · intro cs ps vs1 vs2 bad vn hconv hdate
    show (do
        let dim_clients ← clientsPipeline cs
        let dim_produits ← produitsPipeline ps
        let fact_ventes ← ventesPipeline (vs1 ++ bad :: vs2)
        pure (⟨dim_clients, dim_produits, dimTempsOf fact_ventes,
          fact_ventes⟩ : Warehouse) : Except String Warehouse) = _
    rw [ventesPipeline_drops_bad_date vs1 vs2 bad vn hconv hdate]
    rfl
  · intro cs ps vs bad hmem hbad
    have hvp : (ventesPipeline vs).isOk = false := by
      unfold ventesPipeline
      have := convVentes_not_ok (vs.map cleanVente) (cleanVente bad)
        (List.mem_map_of_mem cleanVente hmem) hbad
      cases hcv : convVentes (vs.map cleanVente) with
      | error e => simp [hcv, except_bind_error, Except.isOk, Except.toBool]
      | ok l =>
          rw [hcv] at this
          simp [Except.isOk, Except.toBool] at this
    show ((do
        let dim_clients ← clientsPipeline cs
        let dim_produits ← produitsPipeline ps
        let fact_ventes ← ventesPipeline vs
        pure (⟨dim_clients, dim_produits, dimTempsOf fact_ventes,
          fact_ventes⟩ : Warehouse) : Except String Warehouse)).isOk = false
    cases hcp : clientsPipeline cs with
    | error e => simp [hcp, except_bind_error, Except.isOk, Except.toBool]
    | ok dc =>
        simp only [hcp, except_bind_ok]
        cases hpp : produitsPipeline ps with
        | error e => simp [hpp, except_bind_error, Except.isOk, Except.toBool]
        | ok dp =>
            simp only [hpp, except_bind_ok]
            cases hvv : ventesPipeline vs with
            | error e => simp [hvv, except_bind_error, Except.isOk, Except.toBool]
            | ok f =>
                rw [hvv] at hvp
                simp [Except.isOk, Except.toBool] at hvp

/-- Witness for C2: the February-30th row is dropped and the run succeeds
identically without it; a one-row extract with quantity "abc" aborts. -/
theorem etl_row_level_parse_handling_witness :
    (runEtl (some cEx) (some pEx) (some ([] ++ vBadDate :: vEx)) =
      runEtl (some cEx) (some pEx) (some ([] ++ vEx))) ∧
    (runEtl (some cEx) (some pEx) (some [vBadQty])).isOk = false :=
  ⟨etl_row_level_parse_handling.1 cEx pEx [] vEx vBadDate
      ⟨some 103, some 1, some 10, some 3, some (mkRat 15 2), none⟩
      (by rfl) rfl,
   etl_row_level_parse_handling.2 cEx pEx [vBadQty] vBadQty (by decide)
      (by rfl)⟩

/-- C2 counterexample: one sales row whose `quantite` is "abc" does not get
dropped with the rest processed — the whole extract's processing aborts
(the same extract without that row succeeds). -/
theorem etl_aborts_on_unparseable_quantity :
    (runEtl (some cEx) (some pEx) (some (vEx ++ [vBadQty]))).isOk = false ∧
    (runEtl (some cEx) (some pEx) (some vEx)).isOk = true := by decide

theorem map_fst_pairs (df : List CubeRow) :
    (df.filterMap (fun r => r.nom_produit.map (fun n => (n, r.quantite)))).map
      Prod.fst = df.filterMap CubeRow.nom_produit := by
  induction df with
  | nil => rfl
  | cons r t ih =>
      cases hn : r.nom_produit <;> simp [List.filterMap_cons, hn, ih]

theorem pairs_filter_snd (df : List CubeRow) (k : String) :
    ((df.filterMap (fun r => r.nom_produit.map
        (fun n => (n, r.quantite)))).filter
      (fun p => decide (p.1 = k))).map Prod.snd =
      (df.filter (fun r => decide (r.nom_produit = some k))).map
        CubeRow.quantite := by
  induction df with
  | nil => rfl
  | cons r t ih =>
      cases hn : r.nom_produit with
      | none => simp [List.filterMap_cons, List.filter_cons, hn, ih]
      | some n =>
          by_cases hk : n = k
          · subst hk
            simp [List.filterMap_cons, List.filter_cons, hn, ih]
          · simp [List.filterMap_cons, List.filter_cons, hn, hk, ih]

/-- C5 (amended): the top-products aggregate sums quantity per non-null
product name, sorts descending by summed quantity, and truncates to at
most 10 rows — exactly `min 10 (number of distinct names)` rows, so fewer
than 10 distinct products give exactly that many rows. Ties are NOT in
first-encountered order: `groupby` (with its default `sort=True`) has
already reordered the groups by ascending product name before
`sort_values`, so equal quantities come out name-ascending. -/
theorem top_products_sorted_bounded (df : List CubeRow) :
    List.Sorted qtyGe (topProduits df) ∧
    (topProduits df).length =
      min 10 (dedupKeepFirst (df.filterMap CubeRow.nom_produit)).length ∧
    ∀ p ∈ topProduits df, p.2 = ratSum ((df.filter
        (fun r => decide (r.nom_produit = some p.1))).map CubeRow.quantite) := by
  refine ⟨?_, ?_, ?_⟩
  · exact List.Pairwise.sublist (List.take_sublist 10 _)
      (List.sorted_insertionSort qtyGe _)
  · unfold topProduits groupbySum
    rw [List.length_take, List.length_insertionSort, List.length_map,
      List.length_insertionSort, map_fst_pairs]
  · intro p hp
    unfold topProduits at hp
    have hp2 := (List.take_sublist 10 _).subset hp
    rw [List.mem_insertionSort] at hp2
    unfold groupbySum at hp2
    obtain ⟨k, _, hpk⟩ := List.mem_map.mp hp2
    rw [← hpk]
    exact congrArg ratSum (pairs_filter_snd df k)

/-- Witness for C5 on a two-product cube: sortedness, exact row count
`min 10 2 = 2`, and the per-name quantity sum for the group "A". -/
theorem top_products_sorted_bounded_witness :
    List.Sorted qtyGe (topProduits dfTie) ∧
    (topProduits dfTie).length =
      min 10 (dedupKeepFirst (dfTie.filterMap CubeRow.nom_produit)).length ∧
    (("A", (5 : Rat)).2 = ratSum ((dfTie.filter
      (fun r => decide (r.nom_produit = some "A"))).map CubeRow.quantite)) :=
  ⟨(top_products_sorted_bounded dfTie).1,
   (top_products_sorted_bounded dfTie).2.1,
   (top_products_sorted_bounded dfTie).2.2 ("A", 5) (by decide)⟩

/-- C5 counterexample: products "B" (first encountered) and "A" tie at
quantity 5; the code emits them name-ascending `[A, B]`, not in
first-encountered order `[B, A]`. -/
theorem top_products_tie_not_first_encountered :
    topProduits dfTie = [("A", 5), ("B", 5)] ∧
    topProduits dfTie ≠ [("B", 5), ("A", 5)] := by decide

theorem except_map_error {α β : Type} (f : α → β) (e : String) :
    (f <$> (Except.error e : Except String α)) = .error e := rfl

theorem except_map_ok {α β : Type} (f : α → β) (a : α) :
    (f <$> (Except.ok a : Except String α)) = .ok (f a) := rfl

/-- What a successful `run_etl` run pins down: the time dimension is
derived from the fact table, and the fact table is the sales pipeline's
output. -/
theorem runEtl_ok_inv {cs? : Option (List RawClient)}
    {ps? : Option (List RawProduit)} {vs? : Option (List RawVente)}
    {w : Warehouse} (h : runEtl cs? ps? vs? = .ok w) :
    w.dim_temps = dimTempsOf w.fact_ventes ∧
    ∃ vs, vs? = some vs ∧ ventesPipeline vs = .ok w.fact_ventes := by
  cases cs? with
  | none => exact Except.noConfusion h
  | some cs =>
  cases ps? with
  | none => exact Except.noConfusion h
  | some ps =>
  cases vs? with
  | none => exact Except.noConfusion h
  | some vs =>
  have h' : (do
      let dim_clients ← clientsPipeline cs
      let dim_produits ← produitsPipeline ps
      let fact_ventes ← ventesPipeline vs
      pure (⟨dim_clients, dim_produits, dimTempsOf fact_ventes,
        fact_ventes⟩ : Warehouse) : Except String Warehouse) = .ok w := h
  cases hcp : clientsPipeline cs with
  | error e => rw [hcp, except_bind_error] at h'; exact Except.noConfusion h'
  | ok dc =>
  rw [hcp, except_bind_ok] at h'
  cases hpp : produitsPipeline ps with
  | error e => rw [hpp, except_bind_error] at h'; exact Except.noConfusion h'
  | ok dp =>
  rw [hpp, except_bind_ok] at h'
  cases hvp : ventesPipeline vs with
  | error e => rw [hvp, except_bind_error] at h'; exact Except.noConfusion h'
  | ok f =>
  rw [hvp, except_bind_ok] at h'
  cases Except.ok.inj h'
  exact ⟨rfl, vs, rfl, hvp⟩

theorem convVente_date {r : RawVente} {v : VenteN}
    (h : convVente r = .ok v) : v.date = parseDate r.date := by
  unfold convVente at h
  cases h1 : toNumericCell r.vente_id with
  | error e => rw [h1, except_bind_error] at h; exact Except.noConfusion h
  | ok vid =>
  rw [h1, except_bind_ok] at h
  cases h2 : toNumericCell r.client_id with
  | error e => rw [h2, except_bind_error] at h; exact Except.noConfusion h
  | ok cid =>
  rw [h2, except_bind_ok] at h
  cases h3 : toNumericCell r.produit_id with
  | error e => rw [h3, except_bind_error] at h; exact Except.noConfusion h
  | ok pid =>
  rw [h3, except_bind_ok] at h
  cases h4 : toNumericCell r.quantite with
  | error e => rw [h4, except_bind_error] at h; exact Except.noConfusion h
  | ok q =>
  rw [h4, except_bind_ok] at h
  cases h5 : toNumericCell r.montant with
  | error e => rw [h5, except_bind_error] at h; exact Except.noConfusion h
  | ok m =>
  rw [h5, except_bind_ok] at h
  cases Except.ok.inj h
  rfl

theorem convVentes_mem {rs : List RawVente} {l : List VenteN}
    (h : convVentes rs = .ok l) :
    ∀ x ∈ l, ∃ r ∈ rs, convVente r = .ok x := by
  induction rs generalizing l with
  | nil =>
      cases Except.ok.inj h
      intro x hx
      exact absurd hx (List.not_mem_nil x)
  | cons r rs ih =>
      rw [convVentes] at h
      cases hc : convVente r with
      | error e => rw [hc, except_bind_error] at h; exact Except.noConfusion h
      | ok v =>
          rw [hc, except_bind_ok] at h
          cases hrest : convVentes rs with
          | error e => rw [hrest] at h; exact Except.noConfusion h
          | ok t =>
              rw [hrest] at h
              cases Except.ok.inj h
              intro x hx
              rcases List.mem_cons.mp hx with rfl | hx'
              · exact ⟨r, List.mem_cons_self r rs, hc⟩
              · obtain ⟨r', hr', hcr'⟩ := ih hrest x hx'
                exact ⟨r', List.mem_cons_of_mem r hr', hcr'⟩

/-- Every fact row surviving the sales pipeline carries a calendar-valid
date (it came through `to_datetime`). -/
theorem ventesPipeline_valid {vs : List RawVente} {l : List Vente}
    (h : ventesPipeline vs = .ok l) : ∀ v ∈ l, ValidDate v.date := by
  unfold ventesPipeline at h
  cases hcv : convVentes (vs.map cleanVente) with
  | error e => rw [hcv, except_bind_error] at h; exact Except.noConfusion h
  | ok typed =>
  rw [hcv, except_bind_ok] at h
  cases Except.ok.inj h
  intro v hv
  rw [mem_dedupKeepFirst] at hv
  obtain ⟨tup, htup, hg⟩ := List.mem_filterMap.mp hv
  obtain ⟨rN, hrN, hwd⟩ := List.mem_filterMap.mp htup
  obtain ⟨d, hd, htupeq⟩ := Option.map_eq_some'.mp hwd
  subst htupeq
  have hdv : ValidDate d := by
    obtain ⟨r0, _, hr0⟩ := convVentes_mem hcv rN hrN
    have := convVente_date hr0
    rw [this] at hd
    exact parseDate_valid hd
  cases hva : rN.vente_id <;> cases hvb : rN.client_id <;>
    cases hvc : rN.produit_id <;> cases hvd : rN.quantite <;>
    cases hve : rN.montant <;>
    rw [hva, hvb, hvc, hvd, hve] at hg <;>
    first
      | (cases Option.some.inj hg; exact hdv)
      | exact absurd hg (by simp)

theorem dimTempsOf_map_date_perm (l : List Vente) :
    ((dimTempsOf l).map TempsRow.date).Perm
      (dedupKeepFirst (l.map Vente.date)) := by
  unfold dimTempsOf
  have h1 := (List.perm_insertionSort tempsLe
    ((dedupKeepFirst (l.map Vente.date)).map TempsRow.ofDate)).map TempsRow.date
  rw [List.map_map] at h1
  have h3 : (TempsRow.date ∘ TempsRow.ofDate) = id := rfl
  rw [h3, List.map_id] at h1
  exact h1

theorem dimTempsOf_dates_nodup (l : List Vente) :
    ((dimTempsOf l).map TempsRow.date).Nodup :=
  (dimTempsOf_map_date_perm l).nodup_iff.mpr (nodup_dedupKeepFirst _)

theorem dimTempsOf_dates_mem (l : List Vente) (d : Date) :
    d ∈ (dimTempsOf l).map TempsRow.date ↔ d ∈ l.map Vente.date :=
  ((dimTempsOf_map_date_perm l).mem_iff).trans (mem_dedupKeepFirst _ _)

theorem mem_dimTempsOf {l : List Vente} {t : TempsRow} (h : t ∈ dimTempsOf l) :
    ∃ d, d ∈ l.map Vente.date ∧ t = TempsRow.ofDate d := by
  unfold dimTempsOf at h
  rw [List.mem_insertionSort] at h
  obtain ⟨d, hd, rfl⟩ := List.mem_map.mp h
  exact ⟨d, (mem_dedupKeepFirst _ _).mp hd, rfl⟩

/-- The example run evaluates to the example warehouse. -/
theorem runEtl_wEx : runEtl (some cEx) (some pEx) (some vEx) = .ok wEx := by
  rfl

/-- C7: after a successful ETL run, `Dim_Temps` has exactly one row per
distinct sale date (duplicate-free date column whose set of dates equals
the fact table's), rows sorted ascending by date, and each row carries the
date's calendar year, month and day with quarter `(month-1)//3 + 1`,
which equals `⌈month/3⌉ = (month+2)/3` and is characterized by
`month ≤ 3·quarter < month + 3`. -/
theorem dim_temps_calendar {cs? : Option (List RawClient)}
    {ps? : Option (List RawProduit)} {vs? : Option (List RawVente)}
    {w : Warehouse} (h : runEtl cs? ps? vs? = .ok w) :
    ((w.dim_temps.map TempsRow.date).Nodup) ∧
    (∀ d, d ∈ w.dim_temps.map TempsRow.date ↔
      d ∈ w.fact_ventes.map Vente.date) ∧
    List.Sorted tempsLe w.dim_temps ∧
    (∀ t ∈ w.dim_temps, t.annee = t.date.year ∧ t.mois = t.date.month ∧
      t.jour = t.date.day ∧ t.trimestre = (t.date.month + 2) / 3 ∧
      t.date.month ≤ 3 * t.trimestre ∧ 3 * t.trimestre < t.date.month + 3) := by
  obtain ⟨hdt, vs, hvs, hvp⟩ := runEtl_ok_inv h
  refine ⟨?_, ?_, ?_, ?_⟩
  · rw [hdt]; exact dimTempsOf_dates_nodup _
  · intro d; rw [hdt]; exact dimTempsOf_dates_mem _ d
  · rw [hdt]; exact List.sorted_insertionSort tempsLe _
  · intro t ht
    rw [hdt] at ht
    obtain ⟨d, hdmem, rfl⟩ := mem_dimTempsOf ht
    obtain ⟨v, hv, hveq⟩ := List.mem_map.mp hdmem
    have hval : ValidDate v.date := ventesPipeline_valid hvp v hv
    rw [hveq] at hval
    have hm : 1 ≤ d.month := hval.1
    refine ⟨rfl, rfl, rfl, ?_, ?_, ?_⟩
    · show (d.month - 1) / 3 + 1 = (d.month + 2) / 3
      omega
    · show d.month ≤ 3 * ((d.month - 1) / 3 + 1)
      omega
    · show 3 * ((d.month - 1) / 3 + 1) < d.month + 3
      omega

/-- Witness for C7: the date column of the example warehouse's time
dimension is duplicate-free and the rows are date-sorted. -/
theorem dim_temps_calendar_witness :
    (wEx.dim_temps.map TempsRow.date).Nodup ∧
    List.Sorted tempsLe wEx.dim_temps :=
  ⟨(dim_temps_calendar runEtl_wEx).1, (dim_temps_calendar runEtl_wEx).2.2.1⟩

theorem filter_key_length_one [DecidableEq κ] {l : List δ} {f : δ → κ}
    {a : κ} (hnod : (l.map f).Nodup) (hmem : a ∈ l.map f) :
    (l.filter (fun x => decide (f x = a))).length = 1 := by
  induction l with
  | nil => simp at hmem
  | cons x t ih =>
      simp only [List.map_cons, List.nodup_cons] at hnod
      rw [List.filter_cons]
      by_cases hx : f x = a
      · rw [if_pos (by simp [hx])]
        have hnil : t.filter (fun y => decide (f y = a)) = [] := by
          rw [List.filter_eq_nil_iff]
          intro y hy
          simp only [decide_eq_true_eq]
          intro hfy
          exact hnod.1 (hx ▸ hfy ▸ List.mem_map_of_mem f hy)
        simp [hnil]
      · rw [if_neg (by simp [hx])]
        apply ih hnod.2
        rcases List.mem_map.mp hmem with ⟨z, hz, hfz⟩
        rcases List.mem_cons.mp hz with rfl | hz'
        · exact absurd hfz hx
        · exact hfz ▸ List.mem_map_of_mem f hz'

theorem loadAndMerge_def (w : Warehouse) : loadAndMerge w =
    mergeLeft (mergeLeft (mergeLeft w.fact_ventes Vente.client_id
        w.dim_clients Client.client_id CubeRow.ofVente)
      CubeRow.produit_id w.dim_produits Produit.produit_id CubeRow.withProduit)
      CubeRow.date w.dim_temps TempsRow.date CubeRow.withTemps := rfl

/-- C10: after a successful ETL run, the date set of `Dim_Temps` equals
the date set of `Fact_Ventes` with each date occurring once, every fact
row matches exactly one time row in the join, and consequently no cube
row has a null year, month, day or quarter. -/
theorem dim_temps_join_total {cs? : Option (List RawClient)}
    {ps? : Option (List RawProduit)} {vs? : Option (List RawVente)}
    {w : Warehouse} (h : runEtl cs? ps? vs? = .ok w) :
    ((w.dim_temps.map TempsRow.date).Nodup) ∧
    (∀ d, d ∈ w.dim_temps.map TempsRow.date ↔
      d ∈ w.fact_ventes.map Vente.date) ∧
    (∀ v ∈ w.fact_ventes,
      (w.dim_temps.filter (fun t => decide (t.date = v.date))).length = 1) ∧
    (∀ r ∈ loadAndMerge w, r.annee.isSome ∧ r.mois.isSome ∧
      r.jour.isSome ∧ r.trimestre.isSome) := by
  obtain ⟨hdt, vs, hvs, hvp⟩ := runEtl_ok_inv h
  have hnod : (w.dim_temps.map TempsRow.date).Nodup := by
    rw [hdt]; exact dimTempsOf_dates_nodup _
  have hmemiff : ∀ d, d ∈ w.dim_temps.map TempsRow.date ↔
      d ∈ w.fact_ventes.map Vente.date := by
    intro d; rw [hdt]; exact dimTempsOf_dates_mem _ d
  refine ⟨hnod, hmemiff, ?_, ?_⟩
  · intro v hv
    exact filter_key_length_one hnod
      ((hmemiff v.date).mpr (List.mem_map_of_mem _ hv))
  · intro r hr
    rw [loadAndMerge_def] at hr
    obtain ⟨x, hx, hcase⟩ := mem_mergeLeft hr
    have hxdate : x.date ∈ w.fact_ventes.map Vente.date := by
      obtain ⟨x1, hx1, hcase1⟩ := mem_mergeLeft hx
      obtain ⟨v, hv, hcase0⟩ := mem_mergeLeft hx1
      have hx1d : x1.date = v.date := by
        rcases hcase0 with ⟨c, _, _, rfl⟩ | ⟨_, rfl⟩ <;> rfl
      have hxd : x.date = x1.date := by
        rcases hcase1 with ⟨p, _, _, rfl⟩ | ⟨_, rfl⟩ <;> rfl
      rw [hxd, hx1d]
      exact List.mem_map_of_mem _ hv
    rcases hcase with ⟨t, htmem, htkey, rfl⟩ | ⟨hnone, rfl⟩
    · exact ⟨by simp [CubeRow.withTemps], by simp [CubeRow.withTemps],
        by simp [CubeRow.withTemps], by simp [CubeRow.withTemps]⟩
    · exfalso
      obtain ⟨t, ht, htd⟩ := List.mem_map.mp ((hmemiff x.date).mpr hxdate)
      exact hnone t ht htd

/-- Witness for C10: the first example fact row (date 2023-04-02) matches
exactly one `Dim_Temps` row. -/
theorem dim_temps_join_total_witness :
    (wEx.dim_temps.filter
      (fun t => decide (t.date = Date.mk 2023 4 2))).length = 1 :=
  (dim_temps_join_total runEtl_wEx).2.2.1
    ⟨100, 1, 10, ⟨2023, 4, 2⟩, 2, mkRat 999 50⟩ (by decide)
